import Mathlib

/-!
Verification development for the BitTorrent/MSE handshake core
(`libtransmission/handshake.cc`).

The handlers of `tr_handshake` are embedded shallowly: the peer IO is a
structure holding the read buffer (a list of byte values), the torrent hash,
direction/transport flags and the ordered log of writes (each tagged with
whether the RC4 encrypt filter was installed at the moment of the write).
External crypto material (SHA1 digests of the DH secret, the RC4-encrypted
verification constant) enters as abstract parameters, since those primitives
live outside the handshake translation unit.  Bytes are naturals; multi-byte
integers are parsed big-endian exactly as the C++ readUint16/readUint32 do.
-/

/-! ## Wire constants (from handshake.cc) -/

/-- The 20-byte BitTorrent protocol header: `\x13` followed by
`"BitTorrent protocol"`. -/
def HandshakeName : List Nat :=
  [19, 66, 105, 116, 84, 111, 114, 114, 101, 110, 116,
   32, 112, 114, 111, 116, 111, 99, 111, 108]

def HandshakeFlagsLen : Nat := 8
def HandshakeSize : Nat := 68
def IncomingHandshakeLen : Nat := 48
def PadaMaxlen : Nat := 512
def PadbMaxlen : Nat := 512
def PadcMaxlen : Nat := 512
def CryptoProvidePlaintext : Nat := 1
def CryptoProvideCrypto : Nat := 2

/-- The MSE verification constant: eight zero bytes. -/
def VC8 : List Nat := List.replicate 8 0

/-- A 20-byte all-zero SHA1 digest, the value of `tr_sha1_digest_t{}`. -/
def zeroDigest : List Nat := List.replicate 20 0

/-- Linux errno value for ETIMEDOUT. -/
def ETIMEDOUT : Nat := 110

/-- Linux errno value for ECONNREFUSED. -/
def ECONNREFUSED : Nat := 111

/-! ## Big-endian integer helpers (readUint16 / readUint32 / addUint16 / addUint32) -/

def beU16 (l : List Nat) : Nat := l.getD 0 0 * 256 + l.getD 1 0

def beU32 (l : List Nat) : Nat :=
  ((l.getD 0 0 * 256 + l.getD 1 0) * 256 + l.getD 2 0) * 256 + l.getD 3 0

def u16be (n : Nat) : List Nat := [n / 256 % 256, n % 256]

def u32be (n : Nat) : List Nat :=
  [n / 16777216 % 256, n / 65536 % 256, n / 256 % 256, n % 256]

/-! ## Data model -/

/-- Encryption policy (`tr_encryption_mode`). -/
inductive EncryptionMode
  | required
  | preferred
  | clearPreferred
  deriving DecidableEq, Repr

/-- The 12 states of the handshake state machine. -/
inductive HState
  | AwaitingHandshake
  | AwaitingPeerId
  | AwaitingYa
  | AwaitingPadA
  | AwaitingCryptoProvide
  | AwaitingPadC
  | AwaitingIa
  | AwaitingPayloadStream
  | AwaitingYb
  | AwaitingVc
  | AwaitingCryptoSelect
  | AwaitingPadD
  deriving DecidableEq, Repr

/-- A read handler's outcome: `READ_NOW`, `READ_LATER`, or a call to
`done(ok)` (which both completes the session and returns). -/
inductive ReadResult
  | readNow
  | readLater
  | doneRes (ok : Bool)
  deriving DecidableEq, Repr

/-- Result codes of `tr_handshake::parse_handshake`. -/
inductive ParseResult
  | Ok
  | EncryptionWrong
  | BadTorrent
  | PeerIsSelf
  deriving DecidableEq, Repr

/-- What the mediator knows about one torrent. -/
structure TorrentInfo where
  info_hash : List Nat
  client_peer_id : List Nat
  is_done : Bool
  id : Nat
  deriving DecidableEq, Repr

/-- The mediator interface: pure queries into the surrounding client. -/
structure Mediator where
  torrent_info : List Nat → Option TorrentInfo
  torrent_info_from_obfuscated : List Nat → Option TorrentInfo
  is_peer_known_seed : Nat → Nat → Bool
  allows_tcp : Bool
  allows_dht : Bool

/-- The peer IO adaptor: the read buffer, the torrent hash, direction and
transport flags, the encrypt/decrypt filter installation flags, the
extension-enable flags, and the ordered log of writes.  Each write is tagged
with the value of the encrypt flag at the moment it was issued: that is the
portion of the stream the RC4 filter transforms. -/
structure PeerIo where
  readBuf : List Nat
  torrentHash : List Nat
  isIncoming : Bool
  isUtp : Bool
  address : Nat
  encryptOn : Bool
  decryptOn : Bool
  dhtOn : Bool
  ltepOn : Bool
  fextOn : Bool
  writes : List (Bool × List Nat)
  deriving DecidableEq, Repr

def PeerIo.dropBytes (io : PeerIo) (n : Nat) : PeerIo :=
  { io with readBuf := io.readBuf.drop n }

def PeerIo.write (io : PeerIo) (bytes : List Nat) : PeerIo :=
  { io with writes := io.writes ++ [(io.encryptOn, bytes)] }

def PeerIo.encryptInit (io : PeerIo) : PeerIo := { io with encryptOn := true }

def PeerIo.decryptInit (io : PeerIo) : PeerIo := { io with decryptOn := true }

def PeerIo.setTorrentHash (io : PeerIo) (h : List Nat) : PeerIo :=
  { io with torrentHash := h }

/-- Enable the DHT / LTEP / FastExt flags from the 8 reserved handshake
bytes: LTEP is bit 0x10 of byte 5, DHT bit 0x01 of byte 7, FastExt bit 0x04
of byte 7. -/
def PeerIo.enableExts (io : PeerIo) (reserved : List Nat) : PeerIo :=
  { io with
    dhtOn := reserved.getD 7 0 &&& 1 ≠ 0
    ltepOn := reserved.getD 5 0 &&& 16 ≠ 0
    fextOn := reserved.getD 7 0 &&& 4 ≠ 0 }

/-- The mutable state of one `tr_handshake` session.  `crypto_provide_` also
stands for the value of the header's `crypto_provide()` accessor (the header
is outside this translation unit); the theorems quantify over it. -/
structure Handshake where
  state : HState
  encryption_mode_ : EncryptionMode
  crypto_provide_ : Nat
  crypto_select_ : Nat
  pad_c_len_ : Nat
  pad_d_len_ : Nat
  ia_len_ : Nat
  have_sent_bittorrent_handshake_ : Bool
  have_read_anything_ : Bool
  peer_id_ : Option (List Nat)
  deriving DecidableEq, Repr

/-- Abstract cryptographic material derived from the DH secret `S`:
`req1digest = SHA1("req1", S)`, `req3digest = SHA1("req3", S)`,
`xorfield = SHA1("req2", info_hash) xor SHA1("req3", S)`,
`vcNeedle = RC4(VC)` for the resynchronisation scan, and `ybPadMsg`, the
public key + padding payload of `send_public_key_and_pad`. -/
structure CryptoEnv where
  req1digest : List Nat
  req3digest : List Nat
  xorfield : List Nat
  vcNeedle : List Nat
  ybPadMsg : List Nat

/-! ## build_handshake_message -/

/-- The 8 reserved bytes our client sends: LTEP (byte 5 gets 0x10) and
FastExt (byte 7 gets 0x04) always, DHT (byte 7 gets 0x01) iff the mediator
allows DHT. -/
def reservedBytes (dht : Bool) : List Nat :=
  [0, 0, 0, 0, 0, 16, 0, if dht then 5 else 4]

/-- `tr_handshake::build_handshake_message`: fails (returns `none`) when the
mediator has no torrent for the IO's hash; otherwise the 68-byte plaintext
BT handshake. -/
def build_handshake_message (m : Mediator) (io : PeerIo) : Option (List Nat) :=
  match m.torrent_info io.torrentHash with
  | none => none
  | some info =>
      some (HandshakeName ++ reservedBytes m.allows_dht ++ io.torrentHash ++ info.client_peer_id)

/-! ## getCryptoSelect -/

/-- `getCryptoSelect`: the two-slot choice array filled according to the
encryption mode (the `required` case leaves the second slot at its
zero-initialised value, exactly as the C++ `std::array` does), then the
first choice with a nonzero intersection with `crypto_provide`, else 0. -/
def getCryptoSelect (mode : EncryptionMode) (crypto_provide : Nat) : Nat :=
  let choices : List Nat :=
    match mode with
    | .required => [CryptoProvideCrypto, 0]
    | .preferred => [CryptoProvideCrypto, CryptoProvidePlaintext]
    | .clearPreferred => [CryptoProvidePlaintext, CryptoProvideCrypto]
  match choices.find? (fun c => crypto_provide &&& c ≠ 0) with
  | some c => c
  | none => 0

/-! ## The resynchronisation scan (read_pad_a / read_vc loop body)

Both scans run at most 512 iterations; in each they return `READ_LATER` when
fewer bytes than the needle remain, stop on a prefix match, and otherwise
drain one byte. -/

inductive ScanOut
  | more (buf : List Nat)
  | found (buf : List Nat)
  | exhausted (buf : List Nat)
  deriving DecidableEq, Repr

def scanBuf (needle : List Nat) : Nat → List Nat → ScanOut
  | 0, buf => .exhausted buf
  | fuel + 1, buf =>
    if buf.length < needle.length then .more buf
    else if needle.isPrefixOf buf then .found buf
    else scanBuf needle fuel (buf.drop 1)

/-! ## parse_handshake -/

/-- `tr_handshake::parse_handshake`: consume and validate a 68-byte plain BT
handshake from the read buffer. -/
def parse_handshake (m : Mediator) (hs : Handshake) (io : PeerIo) :
    ParseResult × Handshake × PeerIo :=
  if io.readBuf.length < HandshakeSize then (.EncryptionWrong, hs, io)
  else
    let name := io.readBuf.take 20
    let io := io.dropBytes 20
    if name ≠ HandshakeName then (.EncryptionWrong, hs, io)
    else
      let reserved := io.readBuf.take 8
      let io := io.dropBytes 8
      let info_hash := io.readBuf.take 20
      let io := io.dropBytes 20
      if info_hash = zeroDigest ∨ info_hash ≠ io.torrentHash then (.BadTorrent, hs, io)
      else
        let pid := io.readBuf.take 20
        let io := io.dropBytes 20
        let hs := { hs with peer_id_ := some pid }
        match m.torrent_info info_hash with
        | some info =>
          if info.client_peer_id = pid then (.PeerIsSelf, hs, io)
          else (.Ok, hs, io.enableExts reserved)
        | none => (.Ok, hs, io.enableExts reserved)

/-! ## Outgoing-side handlers -/

/-- `tr_handshake::read_yb`: a plaintext reply routes to `AwaitingHandshake`;
an encrypted reply consumes the 96-byte `Yb`, writes the two clear 20-byte
hash fields, installs the encrypt filter, and writes the encrypted
`VC ∥ crypto_provide ∥ len(PadC)=0 ∥ len(IA)=68 ∥ BT handshake`. -/
def read_yb (env : CryptoEnv) (m : Mediator) (hs : Handshake) (io : PeerIo) :
    Handshake × PeerIo × ReadResult :=
  if io.readBuf.length < 20 then (hs, io, .readLater)
  else if HandshakeName.isPrefixOf io.readBuf then
    ({ hs with state := .AwaitingHandshake }, io, .readNow)
  else if io.readBuf.length < 96 then (hs, io, .readLater)
  else
    let hs := { hs with have_read_anything_ := true }
    let io := io.dropBytes 96
    let io := io.write (env.req1digest ++ env.xorfield)
    let io := io.encryptInit
    let head2 := VC8 ++ u32be hs.crypto_provide_ ++ u16be 0
    match build_handshake_message m io with
    | some msg =>
      ({ hs with have_sent_bittorrent_handshake_ := true, state := .AwaitingVc },
        io.write (head2 ++ u16be HandshakeSize ++ msg), .readNow)
    | none => (hs, io, .doneRes false)

/-- `tr_handshake::read_vc`: scan up to 512 bytes of PadB for the
RC4-encrypted verification constant; on a match install the decrypt filter,
consume the 8 needle bytes and await `crypto_select`. -/
def read_vc (env : CryptoEnv) (hs : Handshake) (io : PeerIo) :
    Handshake × PeerIo × ReadResult :=
  match scanBuf env.vcNeedle PadbMaxlen io.readBuf with
  | .more b => (hs, { io with readBuf := b }, .readLater)
  | .found b =>
    ({ hs with state := .AwaitingCryptoSelect },
      ({ io with readBuf := b }).decryptInit.dropBytes env.vcNeedle.length, .readNow)
  | .exhausted b => (hs, { io with readBuf := b }, .doneRes false)

/-- `tr_handshake::read_crypto_select`: read u32 `crypto_select` (stored),
fail when it intersects nothing we provided; read u16 `pad_d_len`, fail when
it exceeds 512; else store it and await PadD. -/
def read_crypto_select (hs : Handshake) (io : PeerIo) :
    Handshake × PeerIo × ReadResult :=
  if io.readBuf.length < 6 then (hs, io, .readLater)
  else
    let cs := beU32 (io.readBuf.take 4)
    let io := io.dropBytes 4
    let hs := { hs with crypto_select_ := cs }
    if cs &&& hs.crypto_provide_ = 0 then (hs, io, .doneRes false)
    else
      let pd := beU16 (io.readBuf.take 2)
      let io := io.dropBytes 2
      if pd > 512 then (hs, io, .doneRes false)
      else ({ hs with pad_d_len_ := pd, state := .AwaitingPadD }, io, .readNow)

/-- `tr_handshake::read_pad_d`: drain `pad_d_len_` bytes, then await the
plain BT handshake. -/
def read_pad_d (hs : Handshake) (io : PeerIo) : Handshake × PeerIo × ReadResult :=
  if io.readBuf.length < hs.pad_d_len_ then (hs, io, .readLater)
  else ({ hs with state := .AwaitingHandshake }, io.dropBytes hs.pad_d_len_, .readNow)

/-! ## Incoming-side and shared handlers -/

/-- `tr_handshake::read_handshake`: the pre-peer-id portion of the plain BT
handshake (48 bytes), with the encrypted-detour branch for incoming
connections and the response-handshake send. -/
def read_handshake (m : Mediator) (hs : Handshake) (io : PeerIo) :
    Handshake × PeerIo × ReadResult :=
  if io.readBuf.length < IncomingHandshakeLen then (hs, io, .readLater)
  else
    let hs := { hs with have_read_anything_ := true }
    if HandshakeName.isPrefixOf io.readBuf ∧ hs.encryption_mode_ = .required then
      (hs, io, .doneRes false)
    else if ¬ HandshakeName.isPrefixOf io.readBuf ∧ io.isIncoming then
      ({ hs with state := .AwaitingYa }, io, .readNow)
    else
      let name := io.readBuf.take 20
      let io := io.dropBytes 20
      if name ≠ HandshakeName then (hs, io, .doneRes false)
      else
        let reserved := io.readBuf.take 8
        let io := (io.dropBytes 8).enableExts reserved
        let hash := io.readBuf.take 20
        let io := io.dropBytes 20
        if io.isIncoming then
          match m.torrent_info hash with
          | none => (hs, io, .doneRes false)
          | some _ =>
            let io := io.setTorrentHash hash
            if hs.have_sent_bittorrent_handshake_ then
              ({ hs with state := .AwaitingPeerId }, io, .readNow)
            else
              match build_handshake_message m io with
              | none => (hs, io, .doneRes false)
              | some msg =>
                ({ hs with have_sent_bittorrent_handshake_ := true, state := .AwaitingPeerId },
                  io.write msg, .readNow)
        else
          if io.torrentHash ≠ hash then (hs, io, .doneRes false)
          else if hs.have_sent_bittorrent_handshake_ then
            ({ hs with state := .AwaitingPeerId }, io, .readNow)
          else
            match build_handshake_message m io with
            | none => (hs, io, .doneRes false)
            | some msg =>
              ({ hs with have_sent_bittorrent_handshake_ := true, state := .AwaitingPeerId },
                io.write msg, .readNow)

/-- `tr_handshake::read_peer_id`: read the 20-byte peer id and complete;
success exactly when we have not connected to ourselves. -/
def read_peer_id (m : Mediator) (hs : Handshake) (io : PeerIo) :
    Handshake × PeerIo × ReadResult :=
  if io.readBuf.length < 20 then (hs, io, .readLater)
  else
    let pid := io.readBuf.take 20
    let io := io.dropBytes 20
    let hs := { hs with peer_id_ := some pid }
    let connected_to_self : Bool :=
      match m.torrent_info io.torrentHash with
      | some info => decide (info.client_peer_id = pid)
      | none => false
    (hs, io, .doneRes (!connected_to_self))

/-- `tr_handshake::read_ya`: consume the incoming 96-byte `Ya`, reply with
our public key and padding, and await PadA. -/
def read_ya (env : CryptoEnv) (hs : Handshake) (io : PeerIo) :
    Handshake × PeerIo × ReadResult :=
  if io.readBuf.length < 96 then (hs, io, .readLater)
  else ({ hs with state := .AwaitingPadA }, (io.dropBytes 96).write env.ybPadMsg, .readNow)

/-- `tr_handshake::read_pad_a`: scan byte-by-byte (at most 512 iterations)
for the clear needle `SHA1("req1", S)`; on a match drain it and await
`crypto_provide`; on exhaustion fail. -/
def read_pad_a (env : CryptoEnv) (hs : Handshake) (io : PeerIo) :
    Handshake × PeerIo × ReadResult :=
  match scanBuf env.req1digest PadaMaxlen io.readBuf with
  | .more b => (hs, { io with readBuf := b }, .readLater)
  | .found b =>
    ({ hs with state := .AwaitingCryptoProvide },
      { io with readBuf := b.drop env.req1digest.length }, .readNow)
  | .exhausted b => (hs, { io with readBuf := b }, .doneRes false)

/-- `tr_handshake::read_crypto_provide`: undo the obfuscation of the torrent
hash, look the torrent up, reject seed-to-seed reconnects, install the
decrypt filter, read (and ignore) the 8 VC bytes, store `crypto_provide`,
and validate `pad_c_len ≤ 512`. -/
def read_crypto_provide (env : CryptoEnv) (m : Mediator) (hs : Handshake) (io : PeerIo) :
    Handshake × PeerIo × ReadResult :=
  if io.readBuf.length < 34 then (hs, io, .readLater)
  else
    let req2 := io.readBuf.take 20
    let io := io.dropBytes 20
    let obfuscated := List.zipWith (fun a b => a ^^^ b) req2 env.req3digest
    match m.torrent_info_from_obfuscated obfuscated with
    | some info =>
      let client_is_seed := info.is_done
      let peer_is_seed := m.is_peer_known_seed info.id io.address
      let io := io.setTorrentHash info.info_hash
      if client_is_seed ∧ peer_is_seed then (hs, io, .doneRes false)
      else
        let io := io.decryptInit
        let io := io.dropBytes 8
        let cp := beU32 (io.readBuf.take 4)
        let io := io.dropBytes 4
        let hs := { hs with crypto_provide_ := cp }
        let padc := beU16 (io.readBuf.take 2)
        let io := io.dropBytes 2
        if padc > PadcMaxlen then (hs, io, .doneRes false)
        else ({ hs with pad_c_len_ := padc, state := .AwaitingPadC }, io, .readNow)
    | none => (hs, io, .doneRes false)

/-- `tr_handshake::read_pad_c`: drain the throwaway PadC (`pad_c_len_`
bytes, read into a 512-byte local array), then read u16 `ia_len`. -/
def read_pad_c (hs : Handshake) (io : PeerIo) : Handshake × PeerIo × ReadResult :=
  if io.readBuf.length < hs.pad_c_len_ + 2 then (hs, io, .readLater)
  else
    let io := io.dropBytes hs.pad_c_len_
    let ia := beU16 (io.readBuf.take 2)
    let io := io.dropBytes 2
    ({ hs with ia_len_ := ia, state := .AwaitingIa }, io, .readNow)

/-- `tr_handshake::read_ia`: once `ia_len_` bytes are buffered, install the
encrypt filter, select a crypto mode (failing when none matches), send
`VC ∥ crypto_select ∥ len(PadD)=0` and the BT handshake, and await the
payload stream. -/
def read_ia (m : Mediator) (hs : Handshake) (io : PeerIo) :
    Handshake × PeerIo × ReadResult :=
  if io.readBuf.length < hs.ia_len_ then (hs, io, .readLater)
  else
    let io := io.encryptInit
    let cs := getCryptoSelect hs.encryption_mode_ hs.crypto_provide_
    if cs = 0 then (hs, io, .doneRes false)
    else
      let outbuf := VC8 ++ u32be cs ++ u16be 0
      let pair := if cs = CryptoProvidePlaintext then (io.write outbuf, ([] : List Nat))
                  else (io, outbuf)
      let io := pair.1
      let outbuf := pair.2
      match build_handshake_message m io with
      | some msg =>
        ({ hs with have_sent_bittorrent_handshake_ := true, state := .AwaitingPayloadStream },
          io.write (outbuf ++ msg), .readNow)
      | none => (hs, io, .doneRes false)

/-- `tr_handshake::read_payload_stream`: parse the 68-byte handshake and
complete, successfully exactly when the parse returned `Ok`. -/
def read_payload_stream (m : Mediator) (hs : Handshake) (io : PeerIo) :
    Handshake × PeerIo × ReadResult :=
  if io.readBuf.length < HandshakeSize then (hs, io, .readLater)
  else
    let r := parse_handshake m hs io
    (r.2.1, r.2.2, .doneRes (decide (r.1 = ParseResult.Ok)))

/-! ## Dispatcher, construction, and the error callback -/

/-- One dispatch of `tr_handshake::can_read` at the current state. -/
def stepOnce (env : CryptoEnv) (m : Mediator) (hs : Handshake) (io : PeerIo) :
    Handshake × PeerIo × ReadResult :=
  match hs.state with
  | .AwaitingHandshake => read_handshake m hs io
  | .AwaitingPeerId => read_peer_id m hs io
  | .AwaitingYa => read_ya env hs io
  | .AwaitingPadA => read_pad_a env hs io
  | .AwaitingCryptoProvide => read_crypto_provide env m hs io
  | .AwaitingPadC => read_pad_c hs io
  | .AwaitingIa => read_ia m hs io
  | .AwaitingPayloadStream => read_payload_stream m hs io
  | .AwaitingYb => read_yb env m hs io
  | .AwaitingVc => read_vc env hs io
  | .AwaitingCryptoSelect => read_crypto_select hs io
  | .AwaitingPadD => read_pad_d hs io

/-- The session state right after the `tr_handshake` constructor ran: all
numeric members are default-initialised to zero; incoming sessions await the
handshake, outgoing ones send `Ya` (state `AwaitingYb`) unless the policy is
clear-preferred, in which case the plain handshake is sent at once. -/
def initialHandshake (mode : EncryptionMode) (incoming : Bool) : Handshake :=
  { state := if incoming then .AwaitingHandshake
             else if mode = .clearPreferred then .AwaitingHandshake
             else .AwaitingYb
    encryption_mode_ := mode
    crypto_provide_ := 0
    crypto_select_ := 0
    pad_c_len_ := 0
    pad_d_len_ := 0
    ia_len_ := 0
    have_sent_bittorrent_handshake_ := !incoming && decide (mode = .clearPreferred)
    have_read_anything_ := false
    peer_id_ := none }

/-- The observable outcome of `tr_handshake::on_error`. -/
structure OnErrorResult where
  hs : Handshake
  io : PeerIo
  utp_failed_recorded : Bool
  done_failure : Bool
  deriving Repr

/-- The transport-error context: the captured `errno` and the successive
results of `io->reconnect()` (`true` stands for a zero return). -/
structure ErrorCtx where
  errcode : Nat
  reconnect_results : List Bool

/-- `tr_handshake::on_error`: the µTP→TCP fallback block followed by the
encrypted→plaintext retry, whose `else` branch calls `done(false)`.  The
return value of `build_handshake_message` is ignored at both call sites, as
in the source; on a lookup miss the zero-initialised 68-byte array is
written. -/
def tr_on_error (m : Mediator) (ctx : ErrorCtx) (hs0 : Handshake) (io0 : PeerIo) :
    OnErrorResult :=
  let fb :=
    if io0.isUtp ∧ io0.isIncoming = false ∧ hs0.state = HState.AwaitingYb then
      let info := m.torrent_info io0.torrentHash
      let recorded :=
        decide (ctx.errcode = ETIMEDOUT ∨ ctx.errcode = ECONNREFUSED) && info.isSome
      if m.allows_tcp then
        if ctx.reconnect_results.headD false then
          let msg := (build_handshake_message m io0).getD (List.replicate 68 0)
          ({ hs0 with have_sent_bittorrent_handshake_ := true, state := HState.AwaitingHandshake },
            io0.write msg, recorded, ctx.reconnect_results.tail)
        else (hs0, io0, recorded, ctx.reconnect_results.tail)
      else (hs0, io0, recorded, ctx.reconnect_results)
    else (hs0, io0, false, ctx.reconnect_results)
  let hs1 := fb.1
  let io1 := fb.2.1
  let recorded := fb.2.2.1
  let recs := fb.2.2.2
  if (hs1.state = HState.AwaitingYb ∨ hs1.state = HState.AwaitingVc) ∧
      hs1.encryption_mode_ ≠ EncryptionMode.required ∧ m.allows_tcp ∧
      recs.headD false = true then
    let msg := (build_handshake_message m io1).getD (List.replicate 68 0)
    { hs := { hs1 with have_sent_bittorrent_handshake_ := true, state := HState.AwaitingHandshake }
      io := io1.write msg
      utp_failed_recorded := recorded
      done_failure := false }
  else
    { hs := hs1, io := io1, utp_failed_recorded := recorded, done_failure := true }

/-! ## Reachability

Session states reachable from a freshly constructed handshake under any
sequence of dispatches (with arbitrary buffer contents at each dispatch) and
transport-error callbacks. -/

inductive Reachable (env : CryptoEnv) (m : Mediator) : Handshake → Prop
  | init (mode : EncryptionMode) (incoming : Bool) :
      Reachable env m (initialHandshake mode incoming)
  | step (hs : Handshake) (io : PeerIo) :
      Reachable env m hs → Reachable env m (stepOnce env m hs io).1
  | err (hs : Handshake) (io : PeerIo) (ctx : ErrorCtx) :
      Reachable env m hs → Reachable env m (tr_on_error m ctx hs io).hs

/-! ## Concrete fixtures used by the witnesses -/

def hashW : List Nat := List.replicate 20 7

def pidW : List Nat := List.replicate 20 3

def infoW : TorrentInfo := ⟨hashW, pidW, false, 1⟩

def mW : Mediator :=
  { torrent_info := fun h => if h = hashW then some infoW else none
    torrent_info_from_obfuscated := fun h => if h = List.replicate 20 9 then some infoW else none
    is_peer_known_seed := fun _ _ => false
    allows_tcp := true
    allows_dht := false }

def ioW : PeerIo :=
  { readBuf := []
    torrentHash := hashW
    isIncoming := false
    isUtp := true
    address := 4
    encryptOn := false
    decryptOn := false
    dhtOn := false
    ltepOn := false
    fextOn := false
    writes := [] }

def needleW : List Nat := List.replicate 20 1

def envW : CryptoEnv :=
  ⟨needleW, List.replicate 20 2, List.replicate 20 4, List.replicate 8 5, [1, 2, 3]⟩

def hsW : Handshake := initialHandshake .preferred false
/-- Claim C4: for every encryption policy and every crypto_provide value,
getCryptoSelect returns: with policy required, rc4 (=2) if offered else 0;
with preferred, rc4 if offered, else plaintext (=1) if offered, else 0; with
clear-preferred, plaintext if offered, else rc4 if offered, else 0; and the
result is 0 or a single bit present in crypto_provide. -/
theorem getCryptoSelect_policy (mode : EncryptionMode) (cp : Nat) :
    (getCryptoSelect .required cp = if cp &&& 2 ≠ 0 then 2 else 0) ∧
    (getCryptoSelect .preferred cp =
      if cp &&& 2 ≠ 0 then 2 else if cp &&& 1 ≠ 0 then 1 else 0) ∧
    (getCryptoSelect .clearPreferred cp =
      if cp &&& 1 ≠ 0 then 1 else if cp &&& 2 ≠ 0 then 2 else 0) ∧
    (getCryptoSelect mode cp = 0 ∨
      ((getCryptoSelect mode cp = 1 ∨ getCryptoSelect mode cp = 2) ∧
        cp &&& getCryptoSelect mode cp ≠ 0)) := by
  have hz : cp &&& 0 = 0 := Nat.and_zero cp
  have hone : cp &&& 1 = cp % 2 := Nat.and_one_is_mod cp
  rcases Nat.mod_two_eq_zero_or_one cp with hm | hm <;>
    by_cases h2 : cp &&& 2 = 0 <;>
    cases mode <;>
    simp [getCryptoSelect, List.find?, CryptoProvideCrypto, CryptoProvidePlaintext,
      hone, hm, h2, hz]


/-! ## Lemmas about the resynchronisation scan -/

theorem scanBuf_exhausted (needle : List Nat) (fuel : Nat) :
    ∀ buf : List Nat, fuel + needle.length ≤ buf.length →
    (∀ i < fuel, ¬ needle.isPrefixOf (buf.drop i)) →
    scanBuf needle fuel buf = .exhausted (buf.drop fuel) := by
  induction fuel with
  | zero => intro buf _ _; simp [scanBuf]
  | succ k ih =>
    intro buf hlen hno
    have hbig : ¬ buf.length < needle.length := by omega
    have h0 : ¬ needle.isPrefixOf buf := by
      have := hno 0 (Nat.succ_pos k)
      simpa using this
    have hrec := ih (buf.drop 1)
      (by simp [List.length_drop]; omega)
      (by
        intro i hi
        have := hno (i + 1) (by omega)
        simpa [List.drop_drop, Nat.add_comm] using this)
    simp only [scanBuf, if_neg hbig, if_neg h0, hrec]
    congr 1
    simp [List.drop_drop, Nat.add_comm]

theorem scanBuf_found (needle rest : List Nat) :
    ∀ (pad : List Nat) (fuel : Nat), pad.length < fuel →
    (∀ i < pad.length, ¬ needle.isPrefixOf ((pad ++ (needle ++ rest)).drop i)) →
    scanBuf needle fuel (pad ++ (needle ++ rest)) = .found (needle ++ rest) := by
  intro pad
  induction pad with
  | nil =>
    intro fuel hfuel _
    match fuel, hfuel with
    | k + 1, _ =>
      have hbig : ¬ (needle ++ rest).length < needle.length := by
        simp
      have hpre : needle.isPrefixOf (needle ++ rest) := by
        simp [List.isPrefixOf_iff_prefix]
      simp only [scanBuf, List.nil_append]
      rw [if_neg hbig, if_pos hpre]
  | cons a pad ih =>
    intro fuel hfuel hno
    match fuel, hfuel with
    | k + 1, hfuel =>
      have hbig : ¬ (a :: (pad ++ (needle ++ rest))).length < needle.length := by
        simp; omega
      have h0 : ¬ needle.isPrefixOf (a :: (pad ++ (needle ++ rest))) := by
        have := hno 0 (by simp)
        simpa using this
      have hrec := ih k (by simpa using hfuel)
        (by
          intro i hi
          have := hno (i + 1) (by simp; omega)
          simpa using this)
      simp only [List.cons_append, scanBuf]
      rw [if_neg hbig, if_neg h0]
      simpa using hrec

/-! ## Claim C1 -/

/-- Claim C1: the spec says that on a transport error of an outgoing µTP
session in `AwaitingYb` with `errno = ETIMEDOUT`, after `set_utp_failed` is
recorded and the TCP reconnect succeeds, a plaintext BT handshake is sent,
the state becomes `AwaitingHandshake`, and the session does not complete
with failure at that point.  Evaluating `tr_on_error` at exactly that input
shows the first three parts hold but the last does not: the fallback sets
the state to `AwaitingHandshake`, so the subsequent
encrypted-to-plaintext retry condition is false and its else branch calls
`done(false)`, completing the session with failure. -/
theorem on_error_utp_fallback_behavior :
    (tr_on_error mW ⟨ETIMEDOUT, [true]⟩ hsW ioW).utp_failed_recorded = true ∧
    (tr_on_error mW ⟨ETIMEDOUT, [true]⟩ hsW ioW).hs.state = HState.AwaitingHandshake ∧
    (tr_on_error mW ⟨ETIMEDOUT, [true]⟩ hsW ioW).io.writes =
      [(false, HandshakeName ++ reservedBytes false ++ hashW ++ pidW)] ∧
    (tr_on_error mW ⟨ETIMEDOUT, [true]⟩ hsW ioW).done_failure = true := by
  refine ⟨?_, ?_, ?_, ?_⟩ <;> rfl

/-! ## Claim C2 -/

set_option maxRecDepth 4096 in
/-- Claim C2, counterexample: an input stream whose PadA is exactly 512
bytes (here 512 zero bytes followed immediately by the 20-byte needle, all
buffered) does not advance to `AwaitingCryptoProvide`: the 512 scan
iterations only inspect offsets 0 through 511 and each drains one byte, so
the loop exhausts with the needle at the front of the buffer and
`read_pad_a` completes with failure. -/
theorem read_pad_a_512_counterexample :
    (List.replicate 512 0).length = 512 ∧
    (read_pad_a envW hsW { ioW with readBuf := List.replicate 512 0 ++ needleW }).2.2 =
      ReadResult.doneRes false := by
  exact ⟨rfl, by decide⟩

/-- Claim C2, amended: with the complete stream buffered (PadA, then the
20-byte needle `SHA1("req1", S)`, then anything else) and no accidental
needle match starting inside the padding, `read_pad_a` advances to
`AwaitingCryptoProvide` if and only if PadA is at most 511 bytes; a PadA of
512 or more bytes (513 included) completes with failure. -/
theorem read_pad_a_amended (env : CryptoEnv) (hs : Handshake) (io : PeerIo)
    (pad rest : List Nat)
    (hbuf : io.readBuf = pad ++ (env.req1digest ++ rest))
    (hlen : env.req1digest.length = 20)
    (hno : ∀ i < pad.length,
      ¬ env.req1digest.isPrefixOf ((pad ++ (env.req1digest ++ rest)).drop i)) :
    (((read_pad_a env hs io).1.state = HState.AwaitingCryptoProvide ∧
      (read_pad_a env hs io).2.2 = ReadResult.readNow) ↔ pad.length ≤ 511) := by
  constructor
  · intro hres
    by_contra hgt
    push_neg at hgt
    have hex := scanBuf_exhausted env.req1digest 512 io.readBuf
      (by rw [hbuf]; simp [hlen]; omega)
      (by intro i hi; rw [hbuf]; exact hno i (by omega))
    have hdone : (read_pad_a env hs io).2.2 = ReadResult.doneRes false := by
      simp only [read_pad_a, PadaMaxlen, hex]
    rw [hdone] at hres
    exact absurd hres.2 (by simp)
  · intro hle
    have hf : scanBuf env.req1digest PadaMaxlen io.readBuf = .found (env.req1digest ++ rest) := by
      rw [hbuf]
      exact scanBuf_found env.req1digest rest pad PadaMaxlen
        (by simp [PadaMaxlen]; omega) hno
    constructor <;> simp [read_pad_a, hf]

/-- Witness for the amended claim C2: a concrete 2-byte PadA followed by the
20-byte needle, with no accidental match, advances to
`AwaitingCryptoProvide`. -/
theorem read_pad_a_amended_witness :
    envW.req1digest.length = 20 ∧
    (∀ i < ([9, 9] : List Nat).length,
      ¬ envW.req1digest.isPrefixOf ((([9, 9] : List Nat) ++ (envW.req1digest ++ [])).drop i)) ∧
    (read_pad_a envW hsW { ioW with readBuf := [9, 9] ++ (envW.req1digest ++ []) }).1.state =
      HState.AwaitingCryptoProvide := by
  refine ⟨by decide, by decide, ?_⟩
  exact ((read_pad_a_amended envW hsW _ [9, 9] [] rfl (by decide) (by decide)).mpr
    (by decide)).1

/-! ## Claim C3 -/

/-- Claim C3: the result of `read_crypto_provide` does not depend on the 8
decrypted VC bytes: two buffers that agree on the first 20 bytes (the
obfuscated-hash field) and on everything from offset 28 on, and differ only
in the 8 VC bytes in between, yield the same resulting handshake state
(state, stored crypto_provide and pad_c_len) and the same outcome. -/
theorem read_crypto_provide_vc_independent (env : CryptoEnv) (m : Mediator)
    (hs : Handshake) (io : PeerIo) (pre v1 v2 post : List Nat)
    (hpre : pre.length = 20) (hv1 : v1.length = 8) (hv2 : v2.length = 8)
    (hbuf : io.readBuf = pre ++ (v1 ++ post)) :
    (read_crypto_provide env m hs io).1 =
      (read_crypto_provide env m hs { io with readBuf := pre ++ (v2 ++ post) }).1 ∧
    (read_crypto_provide env m hs io).2.2 =
      (read_crypto_provide env m hs { io with readBuf := pre ++ (v2 ++ post) }).2.2 := by
  have t1 : io.readBuf.take 20 = pre := by rw [hbuf]; exact List.take_left' hpre
  have t2 : (pre ++ (v2 ++ post)).take 20 = pre := List.take_left' hpre
  have d1 : io.readBuf.drop 20 = v1 ++ post := by rw [hbuf]; exact List.drop_left' hpre
  have d2 : (pre ++ (v2 ++ post)).drop 20 = v2 ++ post := List.drop_left' hpre
  have e1 : (v1 ++ post).drop 8 = post := List.drop_left' hv1
  have e2 : (v2 ++ post).drop 8 = post := List.drop_left' hv2
  have l1 : io.readBuf.length = 28 + post.length := by
    rw [hbuf]; simp [hpre, hv1]; omega
  have l2 : (pre ++ (v2 ++ post)).length = 28 + post.length := by
    simp [hpre, hv2]; omega
  simp only [read_crypto_provide, PeerIo.dropBytes, PeerIo.setTorrentHash, PeerIo.decryptInit,
    t1, t2, d1, d2, e1, e2, l1, l2]
  constructor <;>
  · repeat' split
    all_goals rfl

/-- Witness for claim C3 at a concrete input: two 34-byte buffers differing
only in the 8 VC bytes (99s versus 1s) produce the same resulting session
state. -/
theorem read_crypto_provide_vc_independent_witness :
    (List.replicate 20 11).length = 20 ∧
    (read_crypto_provide envW mW hsW
        { ioW with readBuf := List.replicate 20 11 ++ (List.replicate 8 99 ++ [0, 0, 0, 3, 1, 255]) }).1 =
      (read_crypto_provide envW mW hsW
        { ioW with readBuf := List.replicate 20 11 ++ (List.replicate 8 1 ++ [0, 0, 0, 3, 1, 255]) }).1 :=
  ⟨by decide,
    (read_crypto_provide_vc_independent envW mW hsW
      { ioW with readBuf := List.replicate 20 11 ++ (List.replicate 8 99 ++ [0, 0, 0, 3, 1, 255]) }
      (List.replicate 20 11) (List.replicate 8 99) (List.replicate 8 1) [0, 0, 0, 3, 1, 255]
      (by decide) (by decide) (by decide) rfl).1⟩

/-! ## Claim C5 -/

/-- Claim C5: in `AwaitingCryptoSelect` with at least 6 bytes buffered,
`read_crypto_select` reads a big-endian u32 `crypto_select` then u16
`pad_d_len`, fails exactly when `crypto_select` shares no bit with
`crypto_provide` or `pad_d_len > 512`, and otherwise stores `pad_d_len` and
moves to `AwaitingPadD`. -/
theorem read_crypto_select_spec (hs : Handshake) (io : PeerIo)
    (h6 : 6 ≤ io.readBuf.length) :
    ((read_crypto_select hs io).2.2 = ReadResult.doneRes false ↔
      (beU32 (io.readBuf.take 4) &&& hs.crypto_provide_ = 0 ∨
        512 < beU16 ((io.readBuf.drop 4).take 2))) ∧
    (¬ (beU32 (io.readBuf.take 4) &&& hs.crypto_provide_ = 0 ∨
        512 < beU16 ((io.readBuf.drop 4).take 2)) →
      (read_crypto_select hs io).1.pad_d_len_ = beU16 ((io.readBuf.drop 4).take 2) ∧
      (read_crypto_select hs io).1.crypto_select_ = beU32 (io.readBuf.take 4) ∧
      (read_crypto_select hs io).1.state = HState.AwaitingPadD ∧
      (read_crypto_select hs io).2.2 = ReadResult.readNow) := by
  have hlt : ¬ io.readBuf.length < 6 := by omega
  by_cases hand : beU32 (io.readBuf.take 4) &&& hs.crypto_provide_ = 0
  · simp [read_crypto_select, PeerIo.dropBytes, hlt, hand]
  · by_cases hpd : 512 < beU16 ((io.readBuf.drop 4).take 2)
    · simp [read_crypto_select, PeerIo.dropBytes, hlt, hand, hpd]
    · simp [read_crypto_select, PeerIo.dropBytes, hlt, hand, hpd]

/-- Witness for claim C5: a concrete 6-byte buffer selecting rc4 with
`pad_d_len = 256` stores the length and moves to `AwaitingPadD`. -/
theorem read_crypto_select_spec_witness :
    6 ≤ ([0, 0, 0, 2, 1, 0] : List Nat).length ∧
    (read_crypto_select { hsW with crypto_provide_ := 2 }
      { ioW with readBuf := [0, 0, 0, 2, 1, 0] }).1.pad_d_len_ = 256 :=
  ⟨by decide,
    by
      have h := (read_crypto_select_spec { hsW with crypto_provide_ := 2 }
        { ioW with readBuf := [0, 0, 0, 2, 1, 0] } (by decide)).2 (by decide)
      simpa using h.1⟩

/-! ## Claim C6 -/

/-- Claim C6: on the encrypted path of `read_yb`, the two clear 20-byte
fields are written before `encrypt_init` is installed and the
`VC ∥ crypto_provide ∥ pad-length ∥ ia-length ∥ BT-handshake` bytes after
it, so the write log carries exactly one unencrypted segment with the two
hash fields followed by one encrypted segment with the rest. -/
theorem read_yb_encrypt_ordering (env : CryptoEnv) (m : Mediator) (hs : Handshake)
    (io : PeerIo) (info : TorrentInfo)
    (henc : ¬ HandshakeName.isPrefixOf io.readBuf)
    (h96 : 96 ≤ io.readBuf.length)
    (hoff : io.encryptOn = false)
    (hinfo : m.torrent_info io.torrentHash = some info) :
    (read_yb env m hs io).2.1.writes =
      io.writes ++ [(false, env.req1digest ++ env.xorfield),
        (true, VC8 ++ u32be hs.crypto_provide_ ++ u16be 0 ++ u16be HandshakeSize ++
          (HandshakeName ++ reservedBytes m.allows_dht ++ io.torrentHash ++
            info.client_peer_id))] ∧
    (read_yb env m hs io).1.state = HState.AwaitingVc ∧
    (read_yb env m hs io).2.2 = ReadResult.readNow := by
  have h20 : ¬ io.readBuf.length < 20 := by omega
  have h96' : ¬ io.readBuf.length < 96 := by omega
  simp [read_yb, h20, h96', henc, PeerIo.dropBytes, PeerIo.write, PeerIo.encryptInit,
    build_handshake_message, hinfo, hoff]

/-- Witness for claim C6: a concrete encrypted `Yb` reply produces exactly
one clear write (the two hash fields) followed by one encrypted write. -/
theorem read_yb_encrypt_ordering_witness :
    (¬ HandshakeName.isPrefixOf (List.replicate 96 42 : List Nat)) ∧
    (read_yb envW mW hsW { ioW with readBuf := List.replicate 96 42 }).2.1.writes =
      [(false, envW.req1digest ++ envW.xorfield),
       (true, VC8 ++ u32be hsW.crypto_provide_ ++ u16be 0 ++ u16be HandshakeSize ++
         (HandshakeName ++ reservedBytes mW.allows_dht ++ hashW ++ infoW.client_peer_id))] :=
  ⟨by decide, by
    have h := (read_yb_encrypt_ordering envW mW hsW
      { ioW with readBuf := List.replicate 96 42 } infoW (by decide) (by decide) rfl
      (by decide)).1
    simpa using h⟩

/-! ## Claim C7 -/

/-- Claim C7: with at least 34 bytes buffered, `read_crypto_provide`
completes with failure exactly when the obfuscated-hash lookup misses, or
the client and the peer are both seeds for the resolved torrent, or the
parsed `pad_c_len` exceeds 512; otherwise it sets the IO's torrent hash,
installs the decrypt filter, stores `pad_c_len` and moves to
`AwaitingPadC`. -/
theorem read_crypto_provide_failures (env : CryptoEnv) (m : Mediator) (hs : Handshake)
    (io : PeerIo) (h34 : 34 ≤ io.readBuf.length) :
    ((read_crypto_provide env m hs io).2.2 = ReadResult.doneRes false ↔
      (m.torrent_info_from_obfuscated
          (List.zipWith (fun a b => a ^^^ b) (io.readBuf.take 20) env.req3digest) = none ∨
       (∃ info, m.torrent_info_from_obfuscated
          (List.zipWith (fun a b => a ^^^ b) (io.readBuf.take 20) env.req3digest) = some info ∧
          info.is_done = true ∧ m.is_peer_known_seed info.id io.address = true) ∨
       512 < beU16 ((io.readBuf.drop 32).take 2))) ∧
    (∀ info, m.torrent_info_from_obfuscated
        (List.zipWith (fun a b => a ^^^ b) (io.readBuf.take 20) env.req3digest) = some info →
      ¬ (info.is_done = true ∧ m.is_peer_known_seed info.id io.address = true) →
      beU16 ((io.readBuf.drop 32).take 2) ≤ 512 →
      (read_crypto_provide env m hs io).2.1.torrentHash = info.info_hash ∧
      (read_crypto_provide env m hs io).2.1.decryptOn = true ∧
      (read_crypto_provide env m hs io).1.pad_c_len_ =
        beU16 ((io.readBuf.drop 32).take 2) ∧
      (read_crypto_provide env m hs io).1.state = HState.AwaitingPadC ∧
      (read_crypto_provide env m hs io).2.2 = ReadResult.readNow) := by
  have hlt : ¬ io.readBuf.length < 34 := by omega
  rcases hmatch : m.torrent_info_from_obfuscated
      (List.zipWith (fun a b => a ^^^ b) (io.readBuf.take 20) env.req3digest) with _ | info
  · simp [read_crypto_provide, PeerIo.dropBytes, PeerIo.setTorrentHash, PeerIo.decryptInit,
      hlt, hmatch]
  · by_cases hseed : info.is_done = true ∧ m.is_peer_known_seed info.id io.address = true
    · simp [read_crypto_provide, PeerIo.dropBytes, PeerIo.setTorrentHash, PeerIo.decryptInit,
        hlt, hmatch, hseed]
    · by_cases hpadc : 512 < beU16 ((io.readBuf.drop 32).take 2)
      · simp [read_crypto_provide, PeerIo.dropBytes, PeerIo.setTorrentHash, PeerIo.decryptInit,
          hlt, hmatch, hseed, hpadc, PadcMaxlen]
      · simp [read_crypto_provide, PeerIo.dropBytes, PeerIo.setTorrentHash, PeerIo.decryptInit,
          hlt, hmatch, hseed, hpadc, PadcMaxlen]

/-- Witness for claim C7: a concrete 34-byte message whose obfuscated hash
resolves and whose `pad_c_len` is 511 reaches `AwaitingPadC` with the
decrypt filter installed. -/
theorem read_crypto_provide_failures_witness :
    34 ≤ (List.replicate 20 11 ++ (List.replicate 8 99 ++ [0, 0, 0, 3, 1, 255]) : List Nat).length ∧
    (read_crypto_provide envW mW hsW
      { ioW with readBuf := List.replicate 20 11 ++ (List.replicate 8 99 ++ [0, 0, 0, 3, 1, 255]) }).1.state =
      HState.AwaitingPadC :=
  ⟨by decide, by
    have h := (read_crypto_provide_failures envW mW hsW
      { ioW with readBuf := List.replicate 20 11 ++ (List.replicate 8 99 ++ [0, 0, 0, 3, 1, 255]) }
      (by decide)).2 infoW (by decide) (by decide) (by decide)
    exact h.2.2.2.1⟩

/-! ## Claim C8 -/

/-- Claim C8: on both the plaintext path (`read_peer_id`) and the encrypted
path (`parse_handshake`, invoked from `read_payload_stream`), a received
peer-id equal to the mediator's own client peer-id for the torrent completes
the session with failure / `PeerIsSelf`, and otherwise the peer-id check
passes (success / `Ok`). -/
theorem peer_id_self_check (m : Mediator) (hs hs2 : Handshake) (io io2 : PeerIo)
    (h20 : 20 ≤ io.readBuf.length)
    (h68 : 68 ≤ io2.readBuf.length)
    (hname : io2.readBuf.take 20 = HandshakeName)
    (hhash : (io2.readBuf.drop 28).take 20 = io2.torrentHash)
    (hnz : io2.torrentHash ≠ zeroDigest) :
    ((∃ info, m.torrent_info io.torrentHash = some info ∧
        info.client_peer_id = io.readBuf.take 20) →
      (read_peer_id m hs io).2.2 = ReadResult.doneRes false) ∧
    ((∀ info, m.torrent_info io.torrentHash = some info →
        info.client_peer_id ≠ io.readBuf.take 20) →
      (read_peer_id m hs io).2.2 = ReadResult.doneRes true) ∧
    ((∃ info, m.torrent_info io2.torrentHash = some info ∧
        info.client_peer_id = (io2.readBuf.drop 48).take 20) →
      (parse_handshake m hs2 io2).1 = ParseResult.PeerIsSelf) ∧
    ((∀ info, m.torrent_info io2.torrentHash = some info →
        info.client_peer_id ≠ (io2.readBuf.drop 48).take 20) →
      (parse_handshake m hs2 io2).1 = ParseResult.Ok) := by
  have hlt : ¬ io.readBuf.length < 20 := by omega
  have hlt68 : ¬ io2.readBuf.length < HandshakeSize := by simp [HandshakeSize]; omega
  have hcond : ¬ (io2.torrentHash = zeroDigest ∨ io2.torrentHash ≠ io2.torrentHash) := by
    simp [hnz]
  refine ⟨?_, ?_, ?_, ?_⟩
  · rintro ⟨info, hti, heq⟩
    simp [read_peer_id, PeerIo.dropBytes, hlt, hti, heq]
  · intro hne
    rcases hti : m.torrent_info io.torrentHash with _ | info
    · simp [read_peer_id, PeerIo.dropBytes, hlt, hti]
    · simp [read_peer_id, PeerIo.dropBytes, hlt, hti, hne info hti]
  · rintro ⟨info, hti, heq⟩
    simp [parse_handshake, PeerIo.dropBytes, hlt68, hname, hhash, hcond, hnz, hti, heq]
  · intro hne
    rcases hti : m.torrent_info io2.torrentHash with _ | info
    · simp [parse_handshake, PeerIo.dropBytes, hlt68, hname, hhash, hcond, hnz, hti]
    · simp [parse_handshake, PeerIo.dropBytes, hlt68, hname, hhash, hcond, hnz, hti,
        hne info hti]

/-- Witness for claim C8: with the mediator's client peer-id for the torrent
equal to the received id, `read_peer_id` completes with failure and
`parse_handshake` returns `PeerIsSelf` on a concrete 68-byte message. -/
theorem peer_id_self_check_witness :
    20 ≤ (pidW : List Nat).length ∧
    (read_peer_id mW hsW { ioW with readBuf := pidW }).2.2 = ReadResult.doneRes false ∧
    (parse_handshake mW hsW
      { ioW with readBuf := HandshakeName ++ (reservedBytes false ++ (hashW ++ pidW)) }).1 =
      ParseResult.PeerIsSelf := by
  have h := peer_id_self_check mW hsW hsW { ioW with readBuf := pidW }
    { ioW with readBuf := HandshakeName ++ (reservedBytes false ++ (hashW ++ pidW)) }
    (by decide) (by decide) (by decide) (by decide) (by decide)
  exact ⟨by decide, h.1 ⟨infoW, by decide, by decide⟩, h.2.2.1 ⟨infoW, by decide, by decide⟩⟩

/-! ## Claim C9 -/

/-- Claim C9: `parse_handshake` returns `BadTorrent` whenever the 20
info-hash bytes of the peer's message are all zero, for every stored torrent
hash on the IO (the zero check fires before the hash comparison, so an
all-zero hash is rejected even when the IO's stored hash is also zero). -/
theorem parse_handshake_zero_hash (m : Mediator) (hs : Handshake) (io : PeerIo)
    (h68 : 68 ≤ io.readBuf.length)
    (hname : io.readBuf.take 20 = HandshakeName)
    (hzero : (io.readBuf.drop 28).take 20 = zeroDigest) :
    (parse_handshake m hs io).1 = ParseResult.BadTorrent := by
  have hlt : ¬ io.readBuf.length < HandshakeSize := by simp [HandshakeSize]; omega
  simp [parse_handshake, PeerIo.dropBytes, hlt, hname, hzero]

/-- Witness for claim C9: a 68-byte message with an all-zero info-hash is
rejected as `BadTorrent` even though the IO's stored hash is also all
zeros (so the two would compare equal). -/
theorem parse_handshake_zero_hash_witness :
    (HandshakeName ++ List.replicate 48 0 : List Nat).take 20 = HandshakeName ∧
    (parse_handshake mW hsW
      { ioW with readBuf := HandshakeName ++ List.replicate 48 0, torrentHash := zeroDigest }).1 =
      ParseResult.BadTorrent :=
  ⟨by decide,
    parse_handshake_zero_hash mW hsW
      { ioW with readBuf := HandshakeName ++ List.replicate 48 0, torrentHash := zeroDigest }
      (by decide) (by decide) (by decide)⟩

/-! ## Claim C10: preservation of the pad_c bound across the machine -/

theorem read_handshake_keeps_pad_c (m : Mediator) (hs : Handshake) (io : PeerIo) :
    (read_handshake m hs io).1.pad_c_len_ = hs.pad_c_len_ := by
  simp only [read_handshake]
  repeat' split
  all_goals rfl

theorem read_peer_id_keeps_pad_c (m : Mediator) (hs : Handshake) (io : PeerIo) :
    (read_peer_id m hs io).1.pad_c_len_ = hs.pad_c_len_ := by
  simp only [read_peer_id]
  repeat' split
  all_goals rfl

theorem read_ya_keeps_pad_c (env : CryptoEnv) (hs : Handshake) (io : PeerIo) :
    (read_ya env hs io).1.pad_c_len_ = hs.pad_c_len_ := by
  simp only [read_ya]
  repeat' split
  all_goals rfl

theorem read_pad_a_keeps_pad_c (env : CryptoEnv) (hs : Handshake) (io : PeerIo) :
    (read_pad_a env hs io).1.pad_c_len_ = hs.pad_c_len_ := by
  simp only [read_pad_a]
  split
  all_goals rfl

theorem read_pad_c_keeps_pad_c (hs : Handshake) (io : PeerIo) :
    (read_pad_c hs io).1.pad_c_len_ = hs.pad_c_len_ := by
  simp only [read_pad_c]
  split
  all_goals rfl

theorem read_ia_keeps_pad_c (m : Mediator) (hs : Handshake) (io : PeerIo) :
    (read_ia m hs io).1.pad_c_len_ = hs.pad_c_len_ := by
  simp only [read_ia]
  repeat' split
  all_goals rfl

theorem parse_handshake_keeps_pad_c (m : Mediator) (hs : Handshake) (io : PeerIo) :
    (parse_handshake m hs io).2.1.pad_c_len_ = hs.pad_c_len_ := by
  simp only [parse_handshake]
  repeat' split
  all_goals rfl

theorem read_payload_stream_keeps_pad_c (m : Mediator) (hs : Handshake) (io : PeerIo) :
    (read_payload_stream m hs io).1.pad_c_len_ = hs.pad_c_len_ := by
  simp only [read_payload_stream]
  split
  · rfl
  · exact parse_handshake_keeps_pad_c m hs io

theorem read_yb_keeps_pad_c (env : CryptoEnv) (m : Mediator) (hs : Handshake) (io : PeerIo) :
    (read_yb env m hs io).1.pad_c_len_ = hs.pad_c_len_ := by
  simp only [read_yb]
  repeat' split
  all_goals rfl

theorem read_vc_keeps_pad_c (env : CryptoEnv) (hs : Handshake) (io : PeerIo) :
    (read_vc env hs io).1.pad_c_len_ = hs.pad_c_len_ := by
  simp only [read_vc]
  split
  all_goals rfl

theorem read_crypto_select_keeps_pad_c (hs : Handshake) (io : PeerIo) :
    (read_crypto_select hs io).1.pad_c_len_ = hs.pad_c_len_ := by
  simp only [read_crypto_select]
  repeat' split
  all_goals rfl

theorem read_pad_d_keeps_pad_c (hs : Handshake) (io : PeerIo) :
    (read_pad_d hs io).1.pad_c_len_ = hs.pad_c_len_ := by
  simp only [read_pad_d]
  split
  all_goals rfl

theorem tr_on_error_keeps_pad_c (m : Mediator) (ctx : ErrorCtx) (hs : Handshake) (io : PeerIo) :
    (tr_on_error m ctx hs io).hs.pad_c_len_ = hs.pad_c_len_ := by
  simp only [tr_on_error]
  repeat' split
  all_goals rfl

/-- `read_crypto_provide` is the only writer of `pad_c_len_`, and it writes
only values that passed the `≤ 512` check. -/
theorem read_crypto_provide_pad_c_le (env : CryptoEnv) (m : Mediator) (hs : Handshake)
    (io : PeerIo) (h : hs.pad_c_len_ ≤ PadcMaxlen) :
    (read_crypto_provide env m hs io).1.pad_c_len_ ≤ PadcMaxlen := by
  simp only [read_crypto_provide]
  repeat' split
  all_goals simp_all [PadcMaxlen]

theorem stepOnce_pad_c_le (env : CryptoEnv) (m : Mediator) (hs : Handshake) (io : PeerIo)
    (h : hs.pad_c_len_ ≤ PadcMaxlen) : (stepOnce env m hs io).1.pad_c_len_ ≤ PadcMaxlen := by
  cases hst : hs.state <;> simp only [stepOnce, hst]
  case AwaitingHandshake => rw [read_handshake_keeps_pad_c]; exact h
  case AwaitingPeerId => rw [read_peer_id_keeps_pad_c]; exact h
  case AwaitingYa => rw [read_ya_keeps_pad_c]; exact h
  case AwaitingPadA => rw [read_pad_a_keeps_pad_c]; exact h
  case AwaitingCryptoProvide => exact read_crypto_provide_pad_c_le env m hs io h
  case AwaitingPadC => rw [read_pad_c_keeps_pad_c]; exact h
  case AwaitingIa => rw [read_ia_keeps_pad_c]; exact h
  case AwaitingPayloadStream => rw [read_payload_stream_keeps_pad_c]; exact h
  case AwaitingYb => rw [read_yb_keeps_pad_c]; exact h
  case AwaitingVc => rw [read_vc_keeps_pad_c]; exact h
  case AwaitingCryptoSelect => rw [read_crypto_select_keeps_pad_c]; exact h
  case AwaitingPadD => rw [read_pad_d_keeps_pad_c]; exact h

/-- Claim C10: in every session state reachable from construction (through
any sequence of read dispatches and error callbacks), the stored
`pad_c_len_` is at most `PadcMaxlen = 512`: it starts at zero and is only
ever set by `read_crypto_provide` after its `pad_c_len ≤ 512` check, so the
`read_pad_c` read of `pad_c_len_` bytes into the 512-byte local `pad_c`
array is always within bounds. -/
theorem pad_c_len_invariant (env : CryptoEnv) (m : Mediator) (hs : Handshake)
    (h : Reachable env m hs) : hs.pad_c_len_ ≤ PadcMaxlen := by
  induction h with
  | init mode incoming => simp [initialHandshake, PadcMaxlen]
  | step hs io hr ih => exact stepOnce_pad_c_le env m hs io ih
  | err hs io ctx hr ih => rw [tr_on_error_keeps_pad_c]; exact ih

/-- Witness for claim C10: the invariant applied to a concrete reachable
state. -/
theorem pad_c_len_invariant_witness :
    (initialHandshake EncryptionMode.required true).pad_c_len_ ≤ PadcMaxlen :=
  pad_c_len_invariant envW mW (initialHandshake EncryptionMode.required true)
    (Reachable.init EncryptionMode.required true)
